import Mathlib

/-!
Verification of the Portfolio-Optimizer backend against its specification.

The Python services are shallowly embedded in Lean:
* floating-point arithmetic is idealised as exact rational arithmetic (`ℚ`);
* `numpy.sqrt` (an approximate real operation) is abstracted as an explicit
  function parameter `sqrtFn : ℚ → ℚ`;
* datetimes are modelled as integer day numbers, with weekday convention
  `d % 7 = 0 ↦ Monday` (Python's `date.weekday()` has Saturday = 5, Sunday = 6);
* Python's process-global pseudo-random generator is modelled as explicit
  state threading through an abstract `Rng` structure;
* the external SLSQP solver (`scipy.optimize.minimize`) and the external
  market-data upstream (`yfinance`) are abstract function parameters;
* raised exceptions become `Except String` errors carrying the message text.
-/

namespace Analytics

/-- `numpy.mean` of a rational list (0 on the empty list). -/
def mean (l : List ℚ) : ℚ := l.sum / l.length

/-- Population variance, i.e. the square of `numpy.std` (ddof = 0). -/
def variance (l : List ℚ) : ℚ := (l.map (fun x => (x - mean l) ^ 2)).sum / l.length

/-- `numpy.cumprod` with running accumulator `acc`. -/
def cumprodAux (acc : ℚ) : List ℚ → List ℚ
  | [] => []
  | x :: xs => (acc * x) :: cumprodAux (acc * x) xs

/-- `numpy.cumprod`. -/
def cumprod (l : List ℚ) : List ℚ := cumprodAux 1 l

/-- `numpy.maximum.accumulate` with running maximum `m`. -/
def runMaxAux (m : ℚ) : List ℚ → List ℚ
  | [] => []
  | x :: xs => (max m x) :: runMaxAux (max m x) xs

/-- `numpy.maximum.accumulate`. -/
def runningMax : List ℚ → List ℚ
  | [] => []
  | x :: xs => x :: runMaxAux x xs

/-- Minimum of a list with seed `x` (`numpy.min` on a nonempty array `x :: l`). -/
def foldMin (x : ℚ) (l : List ℚ) : ℚ := l.foldl min x

/-- The excess-return series `returns_array - risk_free_rate / 252` built from the
finite entries of the input (`analytics.py` line 38). -/
def excessReturns (rf : ℚ) (returns : List (Option ℚ)) : List ℚ :=
  (returns.filterMap id).map (fun r => r - rf / 252)

/-- The fields of `PerformanceMetrics` referenced by the verified properties.
The remaining fields of the Python result object (annualised return, Sortino,
Calmar, VaR/CVaR, beta, alpha) are not referenced by any claim and are elided. -/
structure PerfMetrics where
  total_return : ℚ
  volatility : ℚ
  sharpe_ratio : ℚ
  max_drawdown : ℚ
deriving Repr, DecidableEq

/-- `total_return = np.prod(1 + returns_array) - 1` (analytics.py line 33). -/
def totalReturn (arr : List ℚ) : ℚ := (arr.map (fun r => 1 + r)).prod - 1

/-- `volatility = np.std(returns_array) * np.sqrt(252)` (analytics.py line 35). -/
def volatilityOf (sqrtFn : ℚ → ℚ) (arr : List ℚ) : ℚ :=
  sqrtFn (variance arr) * sqrtFn 252

/-- Sharpe ratio (analytics.py lines 38-39):
`excess = returns - rf/252; sharpe = mean(excess)/std(excess)*sqrt(252)` if the
standard deviation is nonzero, else 0. -/
def sharpeRatio (sqrtFn : ℚ → ℚ) (rf : ℚ) (arr : List ℚ) : ℚ :=
  let excess := arr.map (fun r => r - rf / 252)
  let stdExcess := sqrtFn (variance excess)
  if stdExcess ≠ 0 then mean excess / stdExcess * sqrtFn 252 else 0

/-- Maximum drawdown (analytics.py lines 47-50): cumulative wealth is the
running product of `1 + r`, the rolling peak its running maximum, drawdown the
relative gap, and the result the minimum drawdown. -/
def maxDrawdown (arr : List ℚ) : ℚ :=
  let cum := cumprod (arr.map (fun r => 1 + r))
  let roll := runningMax cum
  let drawdown := List.zipWith (fun c m => (c - m) / m) cum roll
  match drawdown with
  | [] => 0
  | d :: ds => foldMin d ds

/-- `AnalyticsService.calculate_performance_metrics` (analytics.py lines 16-84),
restricted to the fields above.  A non-finite float (`NaN`/`inf`) is modelled as
`none`; the `np.isfinite` filtering of line 27 is `filterMap id`.  `sqrtFn`
abstracts `np.sqrt` and `rf` is the annual risk-free rate (0.07 by default in
the source). -/
def calculate_performance_metrics (sqrtFn : ℚ → ℚ) (rf : ℚ)
    (returns : List (Option ℚ)) : Except String PerfMetrics :=
  let arr := returns.filterMap id
  if arr.isEmpty then .error "No valid returns data provided"
  else
    .ok { total_return := totalReturn arr,
          volatility := volatilityOf sqrtFn arr,
          sharpe_ratio := sharpeRatio sqrtFn rf arr,
          max_drawdown := maxDrawdown arr }

theorem foldMin_le (x : ℚ) (l : List ℚ) : foldMin x l ≤ x := by
  induction l generalizing x with
  | nil => simp [foldMin]
  | cons y ys ih =>
    calc foldMin x (y :: ys) = foldMin (min x y) ys := rfl
    _ ≤ min x y := ih _
    _ ≤ x := min_le_left _ _

theorem foldMin_all_zero (x : ℚ) (l : List ℚ) (hx : x = 0) (hl : ∀ d ∈ l, d = 0) :
    foldMin x l = 0 := by
  induction l generalizing x with
  | nil => simpa [foldMin]
  | cons y ys ih =>
    have hy : y = 0 := hl y (by simp)
    have : foldMin x (y :: ys) = foldMin (min x y) ys := rfl
    rw [this]
    exact ih (min x y) (by simp [hx, hy]) (fun d hd => hl d (by simp [hd]))

theorem calc_ok (sqrtFn : ℚ → ℚ) (rf : ℚ) (returns : List (Option ℚ))
    (h : returns.filterMap id ≠ []) :
    calculate_performance_metrics sqrtFn rf returns =
      .ok { total_return := totalReturn (returns.filterMap id),
            volatility := volatilityOf sqrtFn (returns.filterMap id),
            sharpe_ratio := sharpeRatio sqrtFn rf (returns.filterMap id),
            max_drawdown := maxDrawdown (returns.filterMap id) } := by
  simp [calculate_performance_metrics, h]

theorem runMaxAux_cumprodAux (xs : List ℚ) :
    ∀ (m acc : ℚ), 0 < acc → m ≤ acc → (∀ x ∈ xs, 1 ≤ x) →
      runMaxAux m (cumprodAux acc xs) = cumprodAux acc xs := by
  induction xs with
  | nil => intro m acc _ _ _; rfl
  | cons x xs ih =>
    intro m acc hacc hm hxs
    have hx : 1 ≤ x := hxs x (by simp)
    have haccx : acc ≤ acc * x := le_mul_of_one_le_right hacc.le hx
    have hmax : max m (acc * x) = acc * x := max_eq_right (hm.trans haccx)
    have hpos : 0 < acc * x := mul_pos hacc (lt_of_lt_of_le one_pos hx)
    simp only [cumprodAux, runMaxAux, hmax]
    rw [ih (acc * x) (acc * x) hpos le_rfl (fun y hy => hxs y (by simp [hy]))]

theorem zipWith_drawdown_self (c : List ℚ) :
    ∀ d ∈ List.zipWith (fun c m => (c - m) / m) c c, d = 0 := by
  induction c with
  | nil => simp
  | cons x xs ih =>
    intro d hd
    simp only [List.zipWith_cons_cons, List.mem_cons] at hd
    rcases hd with h | h
    · simp [h]
    · exact ih d h

theorem maxDrawdown_nonpos (arr : List ℚ) (h : arr ≠ []) : maxDrawdown arr ≤ 0 := by
  obtain ⟨a, as, rfl⟩ := List.exists_cons_of_ne_nil h
  simp only [maxDrawdown, List.map_cons, cumprod, cumprodAux, runningMax,
    List.zipWith_cons_cons]
  have h0 : (1 * (1 + a) - 1 * (1 + a)) / (1 * (1 + a)) = 0 := by
    rw [sub_self, zero_div]
  rw [h0]
  exact foldMin_le 0 _

theorem maxDrawdown_eq_zero (arr : List ℚ) (h : ∀ r ∈ arr, 0 ≤ r) :
    maxDrawdown arr = 0 := by
  cases arr with
  | nil => rfl
  | cons a as =>
    have hge : ∀ x ∈ (a :: as).map (fun r => 1 + r), (1:ℚ) ≤ x := by
      intro x hx
      simp only [List.mem_map] at hx
      obtain ⟨r, hr, rfl⟩ := hx
      linarith [h r hr]
    have ha : (1:ℚ) ≤ 1 + a := hge _ (by simp)
    have hpos : (0:ℚ) < 1 * (1 + a) := by rw [one_mul]; linarith
    have hfix : runMaxAux (1 * (1 + a)) (cumprodAux (1 * (1 + a)) (as.map (fun r => 1 + r)))
        = cumprodAux (1 * (1 + a)) (as.map (fun r => 1 + r)) :=
      runMaxAux_cumprodAux _ _ _ hpos le_rfl
        (fun y hy => hge y (by simp only [List.map_cons, List.mem_cons]; right; exact hy))
    simp only [maxDrawdown, List.map_cons, cumprod, cumprodAux, runningMax,
      List.zipWith_cons_cons, hfix]
    have h0 : (1 * (1 + a) - 1 * (1 + a)) / (1 * (1 + a)) = 0 := by
      rw [sub_self, zero_div]
    rw [h0]
    exact foldMin_all_zero _ _ rfl (zipWith_drawdown_self _)

theorem sharpeRatio_eq_zero (sqrtFn : ℚ → ℚ) (rf : ℚ) (arr : List ℚ)
    (h0 : sqrtFn 0 = 0) (h2 : variance (arr.map (fun r => r - rf / 252)) = 0) :
    sharpeRatio sqrtFn rf arr = 0 := by
  simp [sharpeRatio, h2, h0]

/-- C1. `calculate_performance_metrics` discards non-finite values; whenever at
least one finite value remains it succeeds with `total_return` equal to the
product of `1 + r` over the remaining observations minus 1, and if nothing
remains it fails with the `InvalidInput` error; for the literal series
`[0.01, -0.02, 0.03]` the total return is `0.019494 ≈ 0.0194`. -/
theorem c1_total_return_spec (sqrtFn : ℚ → ℚ) (rf : ℚ) (returns : List (Option ℚ)) :
    (returns.filterMap id ≠ [] →
      (calculate_performance_metrics sqrtFn rf returns).map (·.total_return)
        = .ok (((returns.filterMap id).map (fun r => 1 + r)).prod - 1))
    ∧ (returns.filterMap id = [] →
      calculate_performance_metrics sqrtFn rf returns
        = .error "No valid returns data provided")
    ∧ (calculate_performance_metrics sqrtFn rf
        [some (1/100), some (-2/100), some (3/100)]).map (·.total_return)
        = .ok (9747/500000)
    ∧ |(9747 : ℚ)/500000 - 194/10000| < 1/10000 := by
  refine ⟨fun h => ?_, fun h => ?_, ?_, by rw [abs_lt]; constructor <;> norm_num⟩
  · rw [calc_ok sqrtFn rf returns h]; rfl
  · simp [calculate_performance_metrics, h]
  · rw [calc_ok sqrtFn rf _ (by decide)]
    simp only [Except.map]
    congr 1
    show (1 + 1/100) * ((1 + -2/100) * ((1 + 3/100) * 1)) - 1 = (9747 : ℚ)/500000
    norm_num

theorem c1_total_return_spec_witness :
    (calculate_performance_metrics id 0 [some (1/100)]).map (·.total_return)
      = .ok ((([some ((1:ℚ)/100)].filterMap id).map (fun r => 1 + r)).prod - 1) :=
  (c1_total_return_spec id 0 [some (1/100)]).1 (by decide)

/-- C5. Whenever the excess-return series has zero variance (hence zero standard
deviation, `sqrtFn 0 = 0`), `calculate_performance_metrics` succeeds and returns
a Sharpe ratio of exactly 0 — the division branch is never taken. -/
theorem c5_sharpe_zero_spec (sqrtFn : ℚ → ℚ) (rf : ℚ) (returns : List (Option ℚ))
    (h0 : sqrtFn 0 = 0) (h1 : returns.filterMap id ≠ [])
    (h2 : variance (excessReturns rf returns) = 0) :
    (calculate_performance_metrics sqrtFn rf returns).map (·.sharpe_ratio) = .ok 0 := by
  rw [calc_ok sqrtFn rf returns h1]
  simp only [Except.map]
  rw [sharpeRatio_eq_zero sqrtFn rf _ h0 h2]

theorem c5_sharpe_zero_spec_witness :
    (calculate_performance_metrics id 0 [some 0, some 0]).map (·.sharpe_ratio) = .ok 0 :=
  c5_sharpe_zero_spec id 0 [some 0, some 0] rfl (by decide)
    (by simp [variance, mean, excessReturns])

/-- C6. For every nonempty finite return series the maximum drawdown is ≤ 0,
and if every return is nonnegative it is exactly 0. -/
theorem c6_max_drawdown_spec (sqrtFn : ℚ → ℚ) (rf : ℚ) (l : List ℚ) (h : l ≠ []) :
    ∃ m, calculate_performance_metrics sqrtFn rf (l.map some) = .ok m ∧
      m.max_drawdown ≤ 0 ∧ ((∀ r ∈ l, 0 ≤ r) → m.max_drawdown = 0) := by
  have harr : (l.map some).filterMap id = l := by
    simp [List.filterMap_map]
  refine ⟨_, calc_ok sqrtFn rf (l.map some) (by rw [harr]; exact h), ?_, ?_⟩
  · show maxDrawdown ((l.map some).filterMap id) ≤ 0
    rw [harr]; exact maxDrawdown_nonpos l h
  · intro hr
    show maxDrawdown ((l.map some).filterMap id) = 0
    rw [harr]; exact maxDrawdown_eq_zero l hr

theorem c6_max_drawdown_spec_witness :
    ∃ m, calculate_performance_metrics id (7/100) ([(1:ℚ)/100, 0].map some) = .ok m ∧
      m.max_drawdown ≤ 0 ∧ ((∀ r ∈ [(1:ℚ)/100, 0], 0 ≤ r) → m.max_drawdown = 0) :=
  c6_max_drawdown_spec id (7/100) [(1:ℚ)/100, 0] (by decide)

end Analytics

namespace DataService

/-- Python's process-global `random` module, abstracted: a seeding function and
the two draw operations the synthetic generator uses, each threading the
generator state `σ`.  The distribution parameters are passed through so that
the call pattern of the source is preserved exactly. -/
structure Rng (σ : Type) where
  seedFn : ℕ → σ
  gauss : ℚ → ℚ → σ → ℚ × σ
  uniform : ℚ → ℚ → σ → ℚ × σ

/-- Structural prefix test on character lists (Python `str.startswith`). -/
def charsHasPrefix : List Char → List Char → Bool
  | [], _ => true
  | _ :: _, [] => false
  | p :: ps, c :: cs => p == c && charsHasPrefix ps cs

/-- Structural substring test on character lists (Python `pat in s`). -/
def charsContains (s pat : List Char) : Bool :=
  match s with
  | [] => pat.isEmpty
  | _ :: rest => charsHasPrefix pat s || charsContains rest pat

/-- `pat in s` for strings. -/
def strContains (s pat : String) : Bool := charsContains s.data pat.data

/-- `s.startswith(pat)` for strings. -/
def strStartsWith (s pat : String) : Bool := charsHasPrefix pat.data s.data

/-- `s.upper()` for strings, as a character list. -/
def strUpper (s : String) : List Char := s.data.map Char.toUpper

/-- `days_map.get(period, 252)` (data_service.py lines 139-144). -/
def daysMap (period : String) : ℕ :=
  if period = "1d" then 1 else if period = "5d" then 5
  else if period = "1mo" then 30 else if period = "3mo" then 90
  else if period = "6mo" then 180 else if period = "1y" then 252
  else if period = "2y" then 504 else if period = "5y" then 1260
  else if period = "10y" then 2520 else if period = "max" then 2520 else 252

/-- Base price / annual volatility / annual trend by symbol pattern
(data_service.py lines 146-171). -/
def baseParams (symbol : String) : ℚ × ℚ × ℚ :=
  if strStartsWith symbol ("^") then
    (if strContains symbol ("NSEI") then 24500
     else if strContains symbol ("BSESN") then 80000
     else if strContains symbol ("NSEBANK") then 55000
     else if strContains symbol ("CNXFIN") || strContains symbol ("NIFTY_FIN_SERVICE") then 19000
     else 20000, 15/100, 8/100)
  else if charsContains (strUpper symbol) (String.data "GOLD") then (50, 12/100, 5/100)
  else if charsContains (strUpper symbol) (String.data "BANK") then (1500, 20/100, 10/100)
  else (100, 18/100, 8/100)

/-- The weekend-skip loop of data_service.py lines 186-187: dates are integer
day numbers, with `d % 7 = 5` Saturday and `d % 7 = 6` Sunday, so a weekend
day is pushed forward to the following Monday. -/
def adjustWeekend (d : ℤ) : ℤ :=
  if d % 7 = 5 then d + 2 else if d % 7 = 6 then d + 1 else d

/-- Python `int()` truncation toward zero. -/
def intTrunc (q : ℚ) : ℤ := if 0 ≤ q then ⌊q⌋ else ⌈q⌉

/-- Python `round(x, 2)` idealised as rounding to the nearest cent (the
half-even tie rule of floats is idealised as Mathlib `round`). -/
def roundTo2 (q : ℚ) : ℚ := (round (q * 100) : ℤ) / 100

/-- The output of `_generate_synthetic_data`. -/
structure SynthData where
  symbol : String
  dates : List ℤ
  prices : List ℚ
  volumes : List ℤ
  returns : List ℚ
  high : List ℚ
  low : List ℚ
  openPrices : List ℚ
deriving DecidableEq

/-- Intermediate result of the main generation loop. -/
structure LoopOut (σ : Type) where
  dates : List ℤ
  prices : List ℚ
  volumes : List ℤ
  returns : List ℚ
  state : σ

/-- The per-day generation loop of `_generate_synthetic_data`
(data_service.py lines 183-201): one date, one gaussian daily return
compounding the price, one gaussian volume floored at 1000. -/
def genLoop {σ : Type} (rng : Rng σ) (sqrtFn : ℚ → ℚ) (now : ℤ) (days : ℕ)
    (trend vol baseVolume : ℚ) : List ℕ → ℚ → σ → LoopOut σ
  | [], _, s => ⟨[], [], [], [], s⟩
  | i :: is, price, s =>
    let date := adjustWeekend (now - ((days : ℤ) - (i : ℤ) - 1))
    let g1 := rng.gauss (trend / 252) (vol / sqrtFn 252) s
    let price2 := price * (1 + g1.1)
    let g2 := rng.gauss baseVolume (baseVolume * (3/10)) g1.2
    let rest := genLoop rng sqrtFn now days trend vol baseVolume is price2 g2.2
    ⟨date :: rest.dates, roundTo2 price2 :: rest.prices,
     max (intTrunc g2.1) 1000 :: rest.volumes, g1.1 :: rest.returns, rest.state⟩

/-- A list comprehension `[p * random.uniform(lo, hi) for p in prices]`
threading the generator state left to right. -/
def uniformMap {σ : Type} (rng : Rng σ) (lo hi : ℚ) : List ℚ → σ → List ℚ × σ
  | [], s => ([], s)
  | p :: ps, s =>
    let u := rng.uniform lo hi s
    let rest := uniformMap rng lo hi ps u.2
    (p * u.1 :: rest.1, rest.2)

/-- `MarketDataService._generate_synthetic_data` (data_service.py lines
130-215).  `hashSym` models Python's per-process `hash` of the symbol string,
`now` the current day number, `s0` the incoming state of the process-global
random generator — which the function immediately overwrites via
`random.seed(hash(symbol) % 1000)`. -/
def generateSyntheticData {σ : Type} (rng : Rng σ) (sqrtFn : ℚ → ℚ)
    (hashSym : String → ℕ) (now : ℤ) (symbol period : String) (s0 : σ) :
    SynthData × σ :=
  let s := rng.seedFn (hashSym symbol % 1000)
  let days := daysMap period
  let bp := baseParams symbol
  let baseVolume : ℚ := if strStartsWith symbol ("^") then 100000 else 10000
  let lp := genLoop rng sqrtFn now days bp.2.2 bp.2.1 baseVolume (List.range days) bp.1 s
  let returns := lp.returns.set 0 0
  let hi := uniformMap rng 1 (102/100) lp.prices lp.state
  let lo := uniformMap rng (98/100) 1 lp.prices hi.2
  let op := uniformMap rng (99/100) (101/100) lp.prices lo.2
  ({ symbol := symbol, dates := lp.dates, prices := lp.prices, volumes := lp.volumes,
     returns := returns, high := hi.1, low := lo.1, openPrices := op.1 }, op.2)

/-- C3. Synthetic data generation is deterministic per symbol within a process:
the generator reseeds from the symbol hash, so its output — dates, prices,
volumes and returns alike — does not depend on the incoming state of the
process-global random generator.  Two invocations with the same symbol,
period and clock day therefore produce identical series. -/
theorem c3_synthetic_deterministic_spec {σ : Type} (rng : Rng σ) (sqrtFn : ℚ → ℚ)
    (hashSym : String → ℕ) (now : ℤ) (symbol period : String) (s0 s1 : σ) :
    (generateSyntheticData rng sqrtFn hashSym now symbol period s0).1.dates =
      (generateSyntheticData rng sqrtFn hashSym now symbol period s1).1.dates
    ∧ (generateSyntheticData rng sqrtFn hashSym now symbol period s0).1.prices =
      (generateSyntheticData rng sqrtFn hashSym now symbol period s1).1.prices
    ∧ (generateSyntheticData rng sqrtFn hashSym now symbol period s0).1.returns =
      (generateSyntheticData rng sqrtFn hashSym now symbol period s1).1.returns
    ∧ (generateSyntheticData rng sqrtFn hashSym now symbol period s0).1.volumes =
      (generateSyntheticData rng sqrtFn hashSym now symbol period s1).1.volumes :=
  ⟨rfl, rfl, rfl, rfl⟩

/-- A trivial concrete generator instance used to evaluate the synthetic path
at concrete inputs. -/
def unitRng : Rng Unit where
  seedFn := fun _ => ()
  gauss := fun mu _ s => (mu, s)
  uniform := fun lo _ s => (lo, s)

/-- C7, counterexample.  With "now" falling on a Monday (day number 0) and a
5-day period, the backward walk hits a weekend: Saturday and Sunday are both
pushed to the same Monday, which moreover coincides with "now" itself, so the
generated date sequence is [Thu, Fri, Mon, Mon, Mon] — *not* strictly
ascending.  The claim's "strictly ascending date strings" fails on the
synthetic-generation fallback. -/
theorem c7_counterexample :
    (generateSyntheticData unitRng id (fun _ => 0) 0 ("RELIANCE.NS") ("5d") ()).1.dates
      = [-4, -3, 0, 0, 0]
    ∧ ¬ List.Chain' (· < ·) [(-4 : ℤ), -3, 0, 0, 0] := by
  refine ⟨rfl, fun h => ?_⟩
  simp [List.chain'_cons] at h

theorem le_adjustWeekend (d : ℤ) : d ≤ adjustWeekend d := by
  unfold adjustWeekend; split_ifs <;> omega

theorem adjustWeekend_mono_succ (d : ℤ) : adjustWeekend d ≤ adjustWeekend (d + 1) := by
  have h2 : (d + 1) % 7 = (d % 7 + 1) % 7 := by rw [Int.add_emod]; norm_num
  by_cases h5 : d % 7 = 5
  · have e1 : adjustWeekend d = d + 2 := by simp [adjustWeekend, h5]
    have h6 : (d + 1) % 7 = 6 := by rw [h2, h5]; decide
    have e2 : adjustWeekend (d + 1) = d + 1 + 1 := by simp [adjustWeekend, h6]
    omega
  · by_cases h6 : d % 7 = 6
    · have e1 : adjustWeekend d = d + 1 := by simp [adjustWeekend, h5, h6]
      have h7 : (d + 1) % 7 = 0 := by rw [h2, h6]; decide
      have e2 : adjustWeekend (d + 1) = d + 1 := by simp [adjustWeekend, h7]
      omega
    · have e1 : adjustWeekend d = d := by simp [adjustWeekend, h5, h6]
      have e3 : d + 1 ≤ adjustWeekend (d + 1) := le_adjustWeekend (d + 1)
      omega

theorem genLoop_dates {σ : Type} (rng : Rng σ) (sqrtFn : ℚ → ℚ) (now : ℤ)
    (days : ℕ) (trend vol baseVolume : ℚ) :
    ∀ (is : List ℕ) (price : ℚ) (s : σ),
      (genLoop rng sqrtFn now days trend vol baseVolume is price s).dates
        = is.map (fun (i : ℕ) => adjustWeekend (now - ((days : ℤ) - (i : ℤ) - 1))) := by
  intro is
  induction is with
  | nil => intro price s; rfl
  | cons i is ih => intro price s; simp [genLoop, ih]

theorem genLoop_returns_length {σ : Type} (rng : Rng σ) (sqrtFn : ℚ → ℚ) (now : ℤ)
    (days : ℕ) (trend vol baseVolume : ℚ) :
    ∀ (is : List ℕ) (price : ℚ) (s : σ),
      (genLoop rng sqrtFn now days trend vol baseVolume is price s).returns.length
        = is.length := by
  intro is
  induction is with
  | nil => intro price s; rfl
  | cons i is ih => intro price s; simp [genLoop, ih]

theorem daysMap_pos (period : String) : 0 < daysMap period := by
  unfold daysMap; split_ifs <;> norm_num

theorem chain_le_map_range : ∀ (n : ℕ) (f : ℕ → ℤ), (∀ i, f i ≤ f (i + 1)) →
    List.Chain' (· ≤ ·) ((List.range n).map f) := by
  intro n
  induction n with
  | zero => intro f h; simp
  | succ m ih =>
    intro f h
    rw [List.range_succ_eq_map, List.map_cons, List.map_map]
    rw [List.chain'_cons']
    refine ⟨?_, ih (f ∘ Nat.succ) (fun i => h (i + 1))⟩
    intro y hy
    cases m with
    | zero => simp at hy
    | succ k =>
      rw [List.range_succ_eq_map] at hy
      simp only [List.map_cons, List.map_map, List.head?_cons, Option.mem_def,
        Option.some.injEq] at hy
      rw [← hy]
      exact h 0

theorem dates_chain_le (now : ℤ) (days : ℕ) :
    List.Chain' (· ≤ ·)
      ((List.range days).map
        (fun (i : ℕ) => adjustWeekend (now - ((days : ℤ) - (i : ℤ) - 1)))) := by
  apply chain_le_map_range
  intro i
  have harg : (now - ((days : ℤ) - (i : ℤ) - 1)) + 1
      = now - ((days : ℤ) - ((i : ℕ) + 1 : ℕ) - 1) := by push_cast; ring
  have h := adjustWeekend_mono_succ (now - ((days : ℤ) - (i : ℤ) - 1))
  rw [harg] at h
  exact h

theorem head_set_zero (l : List ℚ) (h : l ≠ []) : (l.set 0 0).head? = some 0 := by
  cases l with
  | nil => exact absurd rfl h
  | cons a as => rfl

/-- C7, amended.  For every synthetic series the generated dates are
non-decreasing (weekend days collapse onto the following Monday, so repeats
can occur and the ascent is weak, not strict) and the first return is exactly
0. -/
theorem c7_amended_spec {σ : Type} (rng : Rng σ) (sqrtFn : ℚ → ℚ)
    (hashSym : String → ℕ) (now : ℤ) (symbol period : String) (s0 : σ) :
    List.Chain' (· ≤ ·)
      (generateSyntheticData rng sqrtFn hashSym now symbol period s0).1.dates
    ∧ (generateSyntheticData rng sqrtFn hashSym now symbol period s0).1.returns.head?
      = some 0 := by
  constructor
  · show List.Chain' (· ≤ ·)
      (genLoop rng sqrtFn now (daysMap period) (baseParams symbol).2.2
        (baseParams symbol).2.1 _ (List.range (daysMap period)) (baseParams symbol).1
        (rng.seedFn (hashSym symbol % 1000))).dates
    rw [genLoop_dates]
    exact dates_chain_le now (daysMap period)
  · apply head_set_zero
    intro hnil
    have hlen := genLoop_returns_length rng sqrtFn now (daysMap period)
      (baseParams symbol).2.2 (baseParams symbol).2.1
      (if strStartsWith symbol ("^") then 100000 else 10000)
      (List.range (daysMap period)) (baseParams symbol).1
      (rng.seedFn (hashSym symbol % 1000))
    rw [hnil] at hlen
    simp at hlen
    have hpos := daysMap_pos period
    omega

end DataService

namespace Portfolios

/-- `rebalance_portfolio` (portfolios.py lines 274-319), restricted to its
effect on the persisted holdings of the target portfolio.  A holding is a
`(symbol, weight)` pair; `newWeights` is the request's symbol→weight dict in
insertion order.  The endpoint validates the weight sum, mutates the weight of
every currently held mapped symbol, inserts a new holding for every mapped
symbol not yet held, then deletes every *pre-existing* holding whose symbol is
unmapped or mapped to 0 (the deletion loop iterates the relationship
collection loaded before the inserts, so freshly added rows are not visited). -/
def rebalance_portfolio (holdings newWeights : List (String × ℚ)) :
    Except String (List (String × ℚ)) :=
  let total := (newWeights.map (fun nw => nw.2)).sum
  if |total - 1| > 1/100 then .error "New weights must sum to 1.0"
  else
    let updated := holdings.map (fun h =>
      match newWeights.lookup h.1 with
      | some w => (h.1, w)
      | none => h)
    let newcomers := newWeights.filter
      (fun nw => !decide (nw.1 ∈ holdings.map (fun h => h.1)))
    let kept := updated.filter (fun h => !decide ((newWeights.lookup h.1).getD 0 = 0))
    .ok (kept ++ newcomers)

theorem upd_fst (newWeights : List (String × ℚ)) (h : String × ℚ) :
    (match newWeights.lookup h.1 with
      | some w => (h.1, w)
      | none => h).1 = h.1 := by
  cases newWeights.lookup h.1 <;> rfl

/-- C8.  For a holdings list with distinct symbols (the well-formed state the
symbol→weight dict semantics presumes) and a rebalance map summing to 1 within
0.01: every existing holding mapped to 0 or absent from the map disappears
from the persisted state, every existing holding mapped to a nonzero weight
survives with the mapped weight, and every mapped symbol not previously held
is inserted. -/
theorem c8_rebalance_spec (holdings newWeights : List (String × ℚ))
    (hN1 : (holdings.map (fun h => h.1)).Nodup)
    (hN2 : (newWeights.map (fun nw => nw.1)).Nodup)
    (hsum : |(newWeights.map (fun nw => nw.2)).sum - 1| ≤ 1/100) :
    ∃ final, rebalance_portfolio holdings newWeights = .ok final ∧
      (∀ h ∈ holdings, (newWeights.lookup h.1 = none ∨ newWeights.lookup h.1 = some 0) →
        ∀ f ∈ final, f.1 ≠ h.1) ∧
      (∀ h ∈ holdings, ∀ w, newWeights.lookup h.1 = some w → w ≠ 0 → (h.1, w) ∈ final) ∧
      (∀ nw ∈ newWeights, nw.1 ∉ holdings.map (fun h => h.1) → nw ∈ final) := by
  have hinj := List.inj_on_of_nodup_map hN1
  refine ⟨_, by rw [rebalance_portfolio, if_neg (not_lt.mpr hsum)], ?_, ?_, ?_⟩
  · intro h hh hlk f hf hfh
    rw [List.mem_append] at hf
    rcases hf with hf | hf
    · rw [List.mem_filter] at hf
      obtain ⟨hfu, hfp⟩ := hf
      rw [List.mem_map] at hfu
      obtain ⟨h2, hh2, rfl⟩ := hfu
      have hf1 : (match newWeights.lookup h2.1 with
          | some w => (h2.1, w)
          | none => h2).1 = h2.1 := upd_fst newWeights h2
      rw [hf1] at hfh hfp
      have heq : h2 = h := hinj hh2 hh hfh
      subst heq
      rcases hlk with hlk | hlk
      · rw [hlk] at hfp
        simp at hfp
      · rw [hlk] at hfp
        simp at hfp
    · rw [List.mem_filter] at hf
      obtain ⟨hfw, hfp⟩ := hf
      simp only [Bool.not_eq_true', decide_eq_false_iff_not] at hfp
      exact hfp (by rw [hfh]; exact List.mem_map_of_mem _ hh)
  · intro h hh w hlk hw
    rw [List.mem_append]
    left
    rw [List.mem_filter]
    constructor
    · have := List.mem_map_of_mem (fun h => match newWeights.lookup h.1 with
        | some w => (h.1, w)
        | none => h) hh
      simpa [hlk] using this
    · simp [upd_fst, hlk, hw]
  · intro nw hnw hns
    rw [List.mem_append]
    right
    rw [List.mem_filter]
    exact ⟨hnw, by simp [hns]⟩

theorem c8_rebalance_spec_witness :
    ∃ final, rebalance_portfolio [(("A"), (1:ℚ)/2), (("B"), 1/2)]
        [(("A"), (0:ℚ)), (("B"), 1/2), (("C"), 1/2)] = .ok final ∧
      (∀ h ∈ [(("A"), (1:ℚ)/2), (("B"), 1/2)],
        ([(("A"), (0:ℚ)), (("B"), 1/2), (("C"), 1/2)].lookup h.1 = none ∨
          [(("A"), (0:ℚ)), (("B"), 1/2), (("C"), 1/2)].lookup h.1 = some 0) →
        ∀ f ∈ final, f.1 ≠ h.1) ∧
      (∀ h ∈ [(("A"), (1:ℚ)/2), (("B"), 1/2)], ∀ w,
        [(("A"), (0:ℚ)), (("B"), 1/2), (("C"), 1/2)].lookup h.1 = some w → w ≠ 0 →
        (h.1, w) ∈ final) ∧
      (∀ nw ∈ [(("A"), (0:ℚ)), (("B"), 1/2), (("C"), 1/2)],
        nw.1 ∉ [(("A"), (1:ℚ)/2), (("B"), 1/2)].map (fun h => h.1) → nw ∈ final) :=
  c8_rebalance_spec _ _ (by decide) (by decide) (by norm_num)

end Portfolios

namespace Auth

/-- A persisted `users` row (database.py `User`). -/
structure UserRow where
  id : ℕ
  email : String
  username : String
  hashed_password : String
  full_name : Option String
  is_active : Bool
  created_at : ℤ
  updated_at : ℤ
  risk_tolerance : String
  investment_horizon : ℕ
deriving DecidableEq

/-- A persisted `portfolios` row, including the optimization-metadata columns. -/
structure PortfolioRow where
  id : ℕ
  name : String
  description : Option String
  user_id : ℕ
  is_active : Bool
  optimization_method : Option String
  risk_tolerance : Option String
  investment_amount : Option ℚ
  expected_return : Option ℚ
  expected_volatility : Option ℚ
  sharpe_ratio : Option ℚ
deriving DecidableEq

/-- A persisted `portfolio_holdings` row. -/
structure HoldingRow where
  id : ℕ
  portfolio_id : ℕ
  symbol : String
  weight : ℚ
  quantity : Option ℚ
  avg_purchase_price : Option ℚ
deriving DecidableEq

/-- The relational state touched by the auth endpoints. -/
structure DbState where
  users : List UserRow
  portfolios : List PortfolioRow
  holdings : List HoldingRow
deriving DecidableEq

/-- `delete_user_me` (auth.py lines 102-113): a soft delete that clears the
authenticated user's `is_active` flag and commits.  The `users.updated_at`
column is declared with `onupdate=func.now()` (database.py line 16), so the
commit's UPDATE of the target row also refreshes that row's `updated_at` to
the current time `now`; no other row is written. -/
def delete_user_me (uid : ℕ) (now : ℤ) (db : DbState) : DbState :=
  { db with users := db.users.map (fun u =>
      if u.id = uid then { u with is_active := false, updated_at := now } else u) }

/-- A concrete one-user database used to instantiate the soft-delete
theorems: user id 1, active, with `updated_at = 0`. -/
def sampleDb : DbState where
  users := [{ id := 1, email := "a@example.com", username := "alice",
              hashed_password := "hp", full_name := none, is_active := true,
              created_at := 0, updated_at := 0, risk_tolerance := "moderate",
              investment_horizon := 60 }]
  portfolios := []
  holdings := []

/-- C9, counterexample.  On a one-user database whose user (id 1, active) has
`updated_at = 0`, soft deletion at time 1 leaves the row with `updated_at = 1`:
the `onupdate=func.now()` column default makes the commit change a second
field of the persisted row, so "every other field of the user is left
unchanged" is false as stated. -/
theorem c9_counterexample :
    (∃ u ∈ sampleDb.users, u.id = 1 ∧ u.is_active = true) ∧
    sampleDb.users.map (fun u => u.updated_at) = [0] ∧
    (delete_user_me 1 1 sampleDb).users.map (fun u => u.updated_at) = [1] ∧
    (1 : ℤ) ≠ 0 := by
  decide

/-- C9, amended.  Account deletion is a soft delete: for an authenticated
active user it clears that user's `is_active` flag and — through the ORM's
`onupdate` timestamp — refreshes that same row's `updated_at` to the time of
the commit.  No user row is removed (the row count is preserved and the rows
correspond one to one), every other field of that user and every field of
every other user is unchanged, and the portfolios and holdings tables are
untouched. -/
theorem c9_soft_delete_spec (db : DbState) (uid : ℕ) (now : ℤ)
    (hauth : ∃ u ∈ db.users, u.id = uid ∧ u.is_active = true) :
    (delete_user_me uid now db).portfolios = db.portfolios ∧
    (delete_user_me uid now db).holdings = db.holdings ∧
    (delete_user_me uid now db).users.length = db.users.length ∧
    List.Forall₂ (fun (u u2 : UserRow) =>
      u2.id = u.id ∧ u2.email = u.email ∧ u2.username = u.username ∧
      u2.hashed_password = u.hashed_password ∧ u2.full_name = u.full_name ∧
      u2.created_at = u.created_at ∧
      u2.risk_tolerance = u.risk_tolerance ∧
      u2.investment_horizon = u.investment_horizon ∧
      u2.is_active = (if u.id = uid then false else u.is_active) ∧
      u2.updated_at = (if u.id = uid then now else u.updated_at))
      db.users (delete_user_me uid now db).users := by
  refine ⟨rfl, rfl, by simp [delete_user_me], ?_⟩
  show List.Forall₂ _ db.users (db.users.map (fun u =>
    if u.id = uid then { u with is_active := false, updated_at := now } else u))
  rw [List.forall₂_map_right_iff, List.forall₂_same]
  intro u _
  by_cases h : u.id = uid <;> simp [h]

theorem c9_soft_delete_spec_witness :
    (delete_user_me 1 1 sampleDb).portfolios = sampleDb.portfolios ∧
    (delete_user_me 1 1 sampleDb).holdings = sampleDb.holdings ∧
    (delete_user_me 1 1 sampleDb).users.length = sampleDb.users.length ∧
    List.Forall₂ (fun (u u2 : UserRow) =>
      u2.id = u.id ∧ u2.email = u.email ∧ u2.username = u.username ∧
      u2.hashed_password = u.hashed_password ∧ u2.full_name = u.full_name ∧
      u2.created_at = u.created_at ∧
      u2.risk_tolerance = u.risk_tolerance ∧
      u2.investment_horizon = u.investment_horizon ∧
      u2.is_active = (if u.id = 1 then false else u.is_active) ∧
      u2.updated_at = (if u.id = 1 then (1:ℤ) else u.updated_at))
      sampleDb.users (delete_user_me 1 1 sampleDb).users :=
  c9_soft_delete_spec sampleDb 1 1 (by decide)

end Auth

namespace Backtesting

/-- The slice of a historical series the backtesting service extracts from the
market-data service (backtesting.py lines 99-124): parsed dates, close prices
and daily returns.  Dates are integer day numbers. -/
structure HistData where
  dates : List ℤ
  prices : List ℚ
  returns : List ℚ
deriving DecidableEq

/-- `rebalance_days.get(rebalance_frequency, 21)` (backtesting.py lines 160-166). -/
def rebalanceDays (freq : String) : ℕ :=
  if freq = "daily" then 1 else if freq = "weekly" then 5
  else if freq = "monthly" then 21 else if freq = "quarterly" then 63 else 21

/-- `self.rebalance_costs.get(rebalance_frequency, 0.0005)` (backtesting.py
lines 16-21 and 186). -/
def rebalanceCosts (freq : String) : ℚ :=
  if freq = "daily" then 2/1000 else if freq = "weekly" then 1/1000
  else if freq = "monthly" then 5/10000 else if freq = "quarterly" then 3/10000
  else 5/10000

/-- Python `list.index(x)`: index of the first occurrence, `none` when absent
(where Python raises `ValueError`, caught by the caller). -/
def indexOfDate (dates : List ℤ) (date : ℤ) : Option ℕ :=
  match dates with
  | [] => none
  | d :: ds => if d = date then some 0 else (indexOfDate ds date).map (fun i => i + 1)

/-- The per-asset daily-return lookup of backtesting.py lines 174-179: the
return at the date's index in the asset's own series, 0 on a missing date or
an out-of-range index. -/
def lookupReturn (sd : HistData) (date : ℤ) : ℚ :=
  match indexOfDate sd.dates date with
  | some idx => sd.returns.getD idx 0
  | none => 0

/-- `_get_historical_data` (backtesting.py lines 99-112): every symbol must be
fetchable, a failure is re-raised as `ValueError`. -/
def getHistoricalDataFor (fetch : String → Except String HistData)
    (symbols : List String) : Except String (List (String × HistData)) :=
  symbols.mapM (fun s => match fetch s with
    | .ok hd => .ok (s, hd)
    | .error e => .error ("Could not fetch data for " ++ s ++ ": " ++ e))

/-- `_get_benchmark_data` (backtesting.py lines 114-124). -/
def getBenchmarkDataFor (fetch : String → Except String HistData)
    (benchmark : String) : Except String HistData :=
  match fetch benchmark with
  | .ok hd => .ok hd
  | .error e => .error ("Could not fetch benchmark data for " ++ benchmark ++ ": " ++ e)

/-- `_align_dates` (backtesting.py lines 126-141): the set intersection of the
benchmark's dates with every symbol's dates, filtered to the requested range
and sorted ascending. -/
def alignDates (pdata : List (String × HistData)) (bdata : HistData)
    (startD endD : ℤ) : List ℤ :=
  List.insertionSort (· ≤ ·)
    ((bdata.dates.filter (fun d =>
      pdata.all (fun sd => sd.2.dates.contains d)
        && decide (startD ≤ d) && decide (d ≤ endD))).dedup)

/-- The running state of `_run_backtest_simulation`'s loop. -/
structure SimState where
  currentWeights : List ℚ
  portfolioValue : ℚ
  portfolioReturns : List ℚ
  portfolioValues : List ℚ
deriving DecidableEq

/-- One day of `_run_backtest_simulation` (backtesting.py lines 168-203):
look up each asset's return for the date, take the weight-dot-return, then on
a rebalance day (`i > 0 and i % interval == 0`) subtract the transaction cost
and reset the weights to the targets; otherwise drift each weight by
`1 + return` and renormalize by the total when it is positive. -/
def simStep (pdata : List (String × HistData)) (targetWeights : List ℚ)
    (rebalInterval : ℕ) (cost : ℚ) (st : SimState) (idate : ℕ × ℤ) : SimState :=
  let dailyReturns := pdata.map (fun sd => lookupReturn sd.2 idate.2)
  let portRet := (List.zipWith (fun w r => w * r) st.currentWeights dailyReturns).sum
  if 0 < idate.1 ∧ idate.1 % rebalInterval = 0 then
    { currentWeights := targetWeights,
      portfolioValue := st.portfolioValue * (1 + (portRet - cost)),
      portfolioReturns := st.portfolioReturns ++ [portRet - cost],
      portfolioValues := st.portfolioValues ++ [st.portfolioValue * (1 + (portRet - cost))] }
  else
    let drifted := List.zipWith (fun w r => w * (1 + r)) st.currentWeights dailyReturns
    let total := drifted.sum
    let newWeights := if 0 < total then drifted.map (fun w => w / total) else drifted
    { currentWeights := newWeights,
      portfolioValue := st.portfolioValue * (1 + portRet),
      portfolioReturns := st.portfolioReturns ++ [portRet],
      portfolioValues := st.portfolioValues ++ [st.portfolioValue * (1 + portRet)] }

/-- The initial state of the simulation loop: target weights, initial capital,
no recorded days. -/
def initSimState (targetWeights : List ℚ) (initialCapital : ℚ) : SimState :=
  { currentWeights := targetWeights, portfolioValue := initialCapital,
    portfolioReturns := [], portfolioValues := [] }

/-- `_run_backtest_simulation` (backtesting.py lines 143-208): fold the daily
step over the enumerated common dates. -/
def runBacktestSimulation (pdata : List (String × HistData)) (targetWeights : List ℚ)
    (dates : List ℤ) (freq : String) (initialCapital : ℚ) : SimState :=
  dates.enum.foldl
    (simStep pdata targetWeights (rebalanceDays freq) (rebalanceCosts freq))
    (initSimState targetWeights initialCapital)

/-- The successive states of the simulation loop, starting with the initial
state; the final state of `runBacktestSimulation` is its last element. -/
def simTrajectory (pdata : List (String × HistData)) (targetWeights : List ℚ)
    (dates : List ℤ) (freq : String) (initialCapital : ℚ) : List SimState :=
  dates.enum.scanl
    (simStep pdata targetWeights (rebalanceDays freq) (rebalanceCosts freq))
    (initSimState targetWeights initialCapital)

/-- `_calculate_benchmark_returns` (backtesting.py lines 210-222): the same
index-based lookup as the per-asset returns. -/
def calculateBenchmarkReturns (bdata : HistData) (dates : List ℤ) : List ℚ :=
  dates.map (fun d => lookupReturn bdata d)

/-- One recorded drawdown period (backtesting.py lines 243-249). -/
structure DrawdownPeriod where
  start_date : ℤ
  end_date : ℤ
  max_drawdown : ℚ
  duration_days : ℕ
  recovery_date : Option ℤ
deriving DecidableEq

/-- `np.min(drawdown[start_idx : i+1])` on a nonempty slice. -/
def ddMinSlice (drawdown : List ℚ) (a b : ℕ) : ℚ :=
  match (drawdown.drop a).take (b + 1 - a) with
  | [] => 0
  | d :: ds => Analytics.foldMin d ds

/-- `_find_drawdown_periods` (backtesting.py lines 224-251): a run starts when
drawdown crosses below −5% and closes when it rises to −1% or above. -/
def findDrawdownPeriods (returns : List ℚ) (dates : List ℤ) : List DrawdownPeriod :=
  let cum := Analytics.cumprod (returns.map (fun r => 1 + r))
  let roll := Analytics.runningMax cum
  let drawdown := List.zipWith (fun c m => (c - m) / m) cum roll
  (drawdown.enum.foldl (fun (st : Bool × ℕ × List DrawdownPeriod) (idd : ℕ × ℚ) =>
    if decide (idd.2 < -(5/100)) && !st.1 then (true, idd.1, st.2.2)
    else if decide (-(1/100) ≤ idd.2) && st.1 then
      (false, st.2.1, st.2.2 ++
        [{ start_date := dates.getD st.2.1 0, end_date := dates.getD idd.1 0,
           max_drawdown := ddMinSlice drawdown st.2.1 idd.1,
           duration_days := idd.1 - st.2.1 + 1,
           recovery_date := if idd.1 < dates.length then some (dates.getD idd.1 0)
             else none }])
    else st) (false, 0, [])).2.2

/-- The static symbol→sector dict of `_calculate_sector_allocation`
(backtesting.py lines 256-270). -/
def sectorPairs : List (String × String) :=
  [(("HDFCBANK.NS"), ("Banking")), (("ICICIBANK.NS"), ("Banking")),
   (("SBIN.NS"), ("Banking")), (("KOTAKBANK.NS"), ("Banking")),
   (("AXISBANK.NS"), ("Banking")), (("BANKBEES.NS"), ("Banking")),
   (("TCS.NS"), ("IT")), (("INFY.NS"), ("IT")), (("WIPRO.NS"), ("IT")),
   (("HCLTECH.NS"), ("IT")), (("TECHM.NS"), ("IT")),
   (("RELIANCE.NS"), ("Oil & Gas")), (("ONGC.NS"), ("Oil & Gas")),
   (("IOC.NS"), ("Oil & Gas")),
   (("HINDUNILVR.NS"), ("FMCG")), (("ITC.NS"), ("FMCG")),
   (("NESTLEIND.NS"), ("FMCG")), (("BRITANNIA.NS"), ("FMCG")),
   (("MARUTI.NS"), ("Auto")), (("M&M.NS"), ("Auto")),
   (("TATAMOTORS.NS"), ("Auto")), (("BAJAJ-AUTO.NS"), ("Auto")),
   (("SUNPHARMA.NS"), ("Pharma")), (("DRREDDY.NS"), ("Pharma")),
   (("CIPLA.NS"), ("Pharma")), (("LUPIN.NS"), ("Pharma")),
   (("TATASTEEL.NS"), ("Metals")), (("HINDALCO.NS"), ("Metals")),
   (("JSWSTEEL.NS"), ("Metals")), (("VEDL.NS"), ("Metals")),
   (("LT.NS"), ("Infrastructure")), (("UBL.NS"), ("Infrastructure")),
   (("GRASIM.NS"), ("Infrastructure")),
   (("BHARTIARTL.NS"), ("Telecom")), (("IDEA.NS"), ("Telecom")),
   (("NTPC.NS"), ("Power")), (("POWERGRID.NS"), ("Power")),
   (("TATAPOWER.NS"), ("Power")),
   (("GOLDBEES.NS"), ("Gold")), (("SILVERBEES.NS"), ("Silver")),
   (("NIFTYBEES.NS"), ("Index ETF")), (("JUNIORBEES.NS"), ("Index ETF"))]

/-- Ordered-dict accumulation `d[k] = d.get(k, 0) + v`. -/
def addToAssoc (acc : List (String × ℚ)) (k : String) (v : ℚ) : List (String × ℚ) :=
  if (acc.lookup k).isSome then
    acc.map (fun p => if p.1 = k then (p.1, p.2 + v) else p)
  else acc ++ [(k, v)]

/-- `_calculate_sector_allocation` (backtesting.py lines 253-277). -/
def calculateSectorAllocation (symbols : List String) (weights : List ℚ) :
    List (String × ℚ) :=
  (List.zip symbols weights).foldl
    (fun acc sw => addToAssoc acc ((sectorPairs.lookup sw.1).getD ("Other")) (sw.2 * 100))
    []

/-- `BacktestResult` (schemas, as populated by backtesting.py lines 90-97). -/
structure BacktestResult where
  portfolio_returns : List ℚ
  benchmark_returns : List ℚ
  dates : List ℤ
  performance_metrics : Analytics.PerfMetrics
  drawdown_periods : List DrawdownPeriod
  sector_allocation : List (String × ℚ)
deriving DecidableEq

/-- `BacktestingService.backtest_portfolio` (backtesting.py lines 23-97).
`fetch` abstracts `data_service.get_historical_data` with period `max`. -/
def backtest_portfolio (sqrtFn : ℚ → ℚ) (fetch : String → Except String HistData)
    (symbols : List String) (weights : List ℚ) (startD endD : ℤ) (benchmark : String)
    (rebalanceFrequency : String) (initialCapital : ℚ) : Except String BacktestResult :=
  if symbols.length ≠ weights.length then
    .error "Number of symbols must match number of weights"
  else if |weights.sum - 1| > 1/100 then .error "Weights must sum to 1.0"
  else
    match getHistoricalDataFor fetch symbols with
    | .error e => .error e
    | .ok pdata =>
      match getBenchmarkDataFor fetch benchmark with
      | .error e => .error e
      | .ok bdata =>
        let commonDates := alignDates pdata bdata startD endD
        if commonDates.length < 30 then .error "Insufficient data for backtesting"
        else
          let sim := runBacktestSimulation pdata weights commonDates rebalanceFrequency
            initialCapital
          let benchmarkReturns := calculateBenchmarkReturns bdata commonDates
          match Analytics.calculate_performance_metrics sqrtFn (7/100)
            (sim.portfolioReturns.map some) with
          | .error e => .error e
          | .ok pm =>
            .ok { portfolio_returns := sim.portfolioReturns,
                  benchmark_returns := benchmarkReturns,
                  dates := commonDates, performance_metrics := pm,
                  drawdown_periods := findDrawdownPeriods sim.portfolioReturns commonDates,
                  sector_allocation := calculateSectorAllocation symbols weights }

/-- The common trading dates a backtest would use, packaged for stating the
insufficient-data property: the fetches of `backtest_portfolio` followed by
`_align_dates`. -/
def commonDatesOf (fetch : String → Except String HistData) (symbols : List String)
    (benchmark : String) (startD endD : ℤ) : Except String (List ℤ) :=
  match getHistoricalDataFor fetch symbols with
  | .error e => .error e
  | .ok pdata =>
    match getBenchmarkDataFor fetch benchmark with
    | .error e => .error e
    | .ok bdata => .ok (alignDates pdata bdata startD endD)

/-- C4.  (a) A backtest whose symbol count differs from its weight count fails
with the `InvalidInput` error regardless of the data source — its result is
independent of `fetch`, so the failure precedes any historical-data fetch.
(b) When the counts match, the weights pass validation, the fetches succeed
and the aligned common dates number fewer than 30, the backtest fails with the
insufficient-data `InvalidInput` error. -/
theorem c4_backtest_invalid_spec (sqrtFn : ℚ → ℚ) :
    (∀ (fetch fetch' : String → Except String HistData) (symbols : List String)
        (weights : List ℚ) (startD endD : ℤ) (benchmark freq : String) (cap : ℚ),
      symbols.length ≠ weights.length →
        backtest_portfolio sqrtFn fetch symbols weights startD endD benchmark freq cap
            = .error "Number of symbols must match number of weights"
          ∧ backtest_portfolio sqrtFn fetch symbols weights startD endD benchmark freq cap
            = backtest_portfolio sqrtFn fetch' symbols weights startD endD benchmark freq
                cap)
    ∧ (∀ (fetch : String → Except String HistData) (symbols : List String)
        (weights : List ℚ) (startD endD : ℤ) (benchmark freq : String) (cap : ℚ)
        (cds : List ℤ),
        symbols.length = weights.length →
        |weights.sum - 1| ≤ 1/100 →
        commonDatesOf fetch symbols benchmark startD endD = .ok cds →
        cds.length < 30 →
        backtest_portfolio sqrtFn fetch symbols weights startD endD benchmark freq cap
          = .error "Insufficient data for backtesting") := by
  constructor
  · intro fetch fetch' symbols weights startD endD benchmark freq cap h
    constructor <;> simp [backtest_portfolio, h]
  · intro fetch symbols weights startD endD benchmark freq cap cds hlen hsum hcd hlt
    rw [backtest_portfolio, if_neg (fun hne => hne hlen), if_neg (not_lt.mpr hsum)]
    rw [commonDatesOf] at hcd
    cases hp : getHistoricalDataFor fetch symbols with
    | error e => rw [hp] at hcd; cases hcd
    | ok pdata =>
      rw [hp] at hcd
      cases hq : getBenchmarkDataFor fetch benchmark with
      | error e => rw [hq] at hcd; cases hcd
      | ok bdata =>
        rw [hq] at hcd
        simp only [Except.ok.injEq] at hcd
        rw [← hcd] at hlt
        simp only [if_pos hlt]

theorem lookupReturn_gt_neg_one (sd : HistData) (date : ℤ)
    (h : ∀ r ∈ sd.returns, (-1:ℚ) < r) : -1 < lookupReturn sd date := by
  unfold lookupReturn
  cases hidx : indexOfDate sd.dates date with
  | none => norm_num
  | some idx =>
    show -1 < sd.returns.getD idx 0
    rcases Nat.lt_or_ge idx sd.returns.length with hlt | hge
    · rw [List.getD_eq_getElem sd.returns 0 hlt]
      exact h _ (List.getElem_mem hlt)
    · rw [List.getD_eq_default sd.returns 0 hge]
      norm_num

theorem zipWith_drift_nonneg (ws : List ℚ) : ∀ (rs : List ℚ),
    (∀ w ∈ ws, 0 ≤ w) → (∀ r ∈ rs, (-1:ℚ) < r) →
    ∀ x ∈ List.zipWith (fun w r => w * (1 + r)) ws rs, 0 ≤ x := by
  induction ws with
  | nil => simp
  | cons w ws ih =>
    intro rs hw hr
    cases rs with
    | nil => simp
    | cons r rs =>
      intro x hx
      simp only [List.zipWith_cons_cons, List.mem_cons] at hx
      rcases hx with rfl | hx
      · have hw0 := hw w (by simp)
        have hr0 := hr r (by simp)
        nlinarith
      · exact ih rs (fun w2 hw2 => hw w2 (by simp [hw2]))
          (fun r2 hr2 => hr r2 (by simp [hr2])) x hx

theorem zipWith_drift_sum_pos (ws : List ℚ) : ∀ (rs : List ℚ),
    ws.length = rs.length → (∀ w ∈ ws, 0 ≤ w) → (∀ r ∈ rs, (-1:ℚ) < r) →
    0 < ws.sum → 0 < (List.zipWith (fun w r => w * (1 + r)) ws rs).sum := by
  induction ws with
  | nil => intro rs _ _ _ hsum; simp at hsum
  | cons w ws ih =>
    intro rs hlen hw hr hsum
    cases rs with
    | nil => simp at hlen
    | cons r rs =>
      simp only [List.zipWith_cons_cons, List.sum_cons]
      have hw0 : 0 ≤ w := hw w (by simp)
      have hr0 : -1 < r := hr r (by simp)
      rcases eq_or_lt_of_le hw0 with heq | hlt
      · have hsum2 : 0 < ws.sum := by
          rw [List.sum_cons, ← heq, zero_add] at hsum
          exact hsum
        have hrest := ih rs (by simpa using hlen)
          (fun w2 hw2 => hw w2 (by simp [hw2]))
          (fun r2 hr2 => hr r2 (by simp [hr2])) hsum2
        have hterm : w * (1 + r) = 0 := by rw [← heq]; ring
        linarith
      · have hterm : 0 < w * (1 + r) := by nlinarith
        have hrest : 0 ≤ (List.zipWith (fun w r => w * (1 + r)) ws rs).sum :=
          List.sum_nonneg (zipWith_drift_nonneg ws rs
            (fun w2 hw2 => hw w2 (by simp [hw2]))
            (fun r2 hr2 => hr r2 (by simp [hr2])))
        linarith

theorem sum_map_div (l : List ℚ) (t : ℚ) : (l.map (fun x => x / t)).sum = l.sum / t := by
  induction l with
  | nil => simp
  | cons x xs ih => simp [ih, add_div]

/-- The weight-vector invariant maintained by the simulation loop. -/
def WeightsInv (n : ℕ) (st : SimState) : Prop :=
  st.currentWeights.sum = 1 ∧ (∀ w ∈ st.currentWeights, 0 ≤ w) ∧
    st.currentWeights.length = n

theorem simStep_preserves (pdata : List (String × HistData)) (targetWeights : List ℚ)
    (rebalInterval : ℕ) (cost : ℚ)
    (hsum : targetWeights.sum = 1) (hnn : ∀ w ∈ targetWeights, 0 ≤ w)
    (hlen : targetWeights.length = pdata.length)
    (hret : ∀ sd ∈ pdata, ∀ r ∈ sd.2.returns, (-1:ℚ) < r)
    (st : SimState) (idate : ℕ × ℤ) (hst : WeightsInv pdata.length st) :
    WeightsInv pdata.length (simStep pdata targetWeights rebalInterval cost st idate) := by
  obtain ⟨h1, h2, h3⟩ := hst
  have hdrlen : (pdata.map (fun sd => lookupReturn sd.2 idate.2)).length = pdata.length := by
    simp
  have hdrmem : ∀ r ∈ pdata.map (fun sd => lookupReturn sd.2 idate.2), (-1:ℚ) < r := by
    intro r hrm
    rw [List.mem_map] at hrm
    obtain ⟨sd, hsd, rfl⟩ := hrm
    exact lookupReturn_gt_neg_one sd.2 idate.2 (hret sd hsd)
  unfold simStep
  by_cases hc : 0 < idate.1 ∧ idate.1 % rebalInterval = 0
  · simp only [if_pos hc]
    exact ⟨hsum, hnn, hlen⟩
  · simp only [if_neg hc]
    have hlen2 : st.currentWeights.length
        = (pdata.map (fun sd => lookupReturn sd.2 idate.2)).length := by
      rw [h3, hdrlen]
    have hpos : 0 < (List.zipWith (fun w r => w * (1 + r)) st.currentWeights
        (pdata.map (fun sd => lookupReturn sd.2 idate.2))).sum :=
      zipWith_drift_sum_pos _ _ hlen2 h2 hdrmem (by rw [h1]; norm_num)
    simp only [if_pos hpos]
    refine ⟨?_, ?_, ?_⟩
    · rw [sum_map_div, div_self (ne_of_gt hpos)]
    · intro w hw2
      rw [List.mem_map] at hw2
      obtain ⟨x, hx, rfl⟩ := hw2
      exact div_nonneg (zipWith_drift_nonneg _ _ h2 hdrmem x hx) hpos.le
    · rw [List.length_map, List.length_zipWith, h3, hdrlen, Nat.min_self]

theorem scanl_invariant {α β : Type} (f : α → β → α) (P : α → Prop)
    (hstep : ∀ a b, P a → P (f a b)) :
    ∀ (l : List β) (a : α), P a → ∀ x ∈ List.scanl f a l, P x := by
  intro l
  induction l with
  | nil =>
    intro a ha x hx
    simp only [List.scanl_nil, List.mem_singleton] at hx
    subst hx
    exact ha
  | cons b bs ih =>
    intro a ha x hx
    rw [List.scanl_cons] at hx
    rcases List.mem_cons.mp hx with rfl | hx2
    · exact ha
    · exact ih (f a b) (hstep a b ha) x hx2

/-- C10, amended.  With *nonnegative* target weights summing exactly to 1 and
every per-asset return greater than −1, the simulation's current weight vector
sums to 1 after every simulated day (it holds at every state of the loop's
trajectory); on a rebalance day — a positive index that is a multiple of the
rebalance interval — the step resets the weights exactly to the targets. -/
theorem c10_weights_sum_invariant_spec (pdata : List (String × HistData))
    (targetWeights : List ℚ) (dates : List ℤ) (freq : String) (cap : ℚ)
    (hlen : targetWeights.length = pdata.length)
    (hsum : targetWeights.sum = 1)
    (hnn : ∀ w ∈ targetWeights, 0 ≤ w)
    (hret : ∀ sd ∈ pdata, ∀ r ∈ sd.2.returns, (-1:ℚ) < r) :
    (∀ st ∈ simTrajectory pdata targetWeights dates freq cap,
      st.currentWeights.sum = 1)
    ∧ (∀ (st : SimState) (i : ℕ) (d : ℤ), 0 < i → i % rebalanceDays freq = 0 →
        (simStep pdata targetWeights (rebalanceDays freq) (rebalanceCosts freq) st
          (i, d)).currentWeights = targetWeights) := by
  constructor
  · intro st hst
    exact (scanl_invariant _ (WeightsInv pdata.length)
      (fun a b ha => simStep_preserves pdata targetWeights (rebalanceDays freq)
        (rebalanceCosts freq) hsum hnn hlen hret a b ha)
      dates.enum (initSimState targetWeights cap) ⟨hsum, hnn, hlen⟩ st hst).1
  · intro st i d hi hmod
    simp [simStep, hi, hmod]

/-- The two-asset data set of the weight-drift counterexample: on the single
common day asset A returns 0 and asset B returns 1. -/
def cPdata : List (String × HistData) :=
  [(("A"), ⟨[0], [1], [0]⟩), (("B"), ⟨[0], [1], [1]⟩)]

theorem c10_weights_sum_invariant_spec_witness :
    (∀ st ∈ simTrajectory cPdata [1/2, 1/2] [0] ("monthly") 100000,
      st.currentWeights.sum = 1)
    ∧ (∀ (st : SimState) (i : ℕ) (d : ℤ), 0 < i → i % rebalanceDays ("monthly") = 0 →
        (simStep cPdata [1/2, 1/2] (rebalanceDays ("monthly"))
          (rebalanceCosts ("monthly")) st (i, d)).currentWeights = [1/2, 1/2]) :=
  c10_weights_sum_invariant_spec cPdata [1/2, 1/2] [0] ("monthly") 100000
    (by decide) (by norm_num) (by norm_num)
    (by intro sd hsd r hr; fin_cases hsd <;> simp_all)

/-- C10, counterexample.  The target weights `[2, -1]` sum exactly to 1 and
every per-asset daily return exceeds −1, yet after the first simulated day the
drifted vector `[2, -2]` has total 0, the renormalization guard `total > 0`
fails, and the current weight vector sums to 0 — the invariant claimed without
a nonnegativity hypothesis is false. -/
theorem c10_counterexample :
    (([2, -1] : List ℚ).sum = 1
      ∧ (∀ sd ∈ cPdata, ∀ r ∈ sd.2.returns, (-1:ℚ) < r))
    ∧ ∃ st ∈ simTrajectory cPdata [2, -1] [0] ("monthly") 100000,
        st.currentWeights.sum ≠ 1 := by
  refine ⟨⟨by norm_num, ?_⟩, ?_⟩
  · intro sd hsd r hr
    fin_cases hsd <;> simp_all
  · refine ⟨simStep cPdata [2, -1] (rebalanceDays ("monthly"))
      (rebalanceCosts ("monthly")) (initSimState [2, -1] 100000) (0, 0), ?_, ?_⟩
    · show _ ∈ List.scanl _ _ _
      simp [List.scanl]
    · norm_num [simStep, initSimState, lookupReturn, indexOfDate, cPdata]

theorem c4_backtest_invalid_spec_witness :
    (backtest_portfolio id (fun _ => .ok ⟨[0], [1], [0]⟩) [("A")] [] 0 40 ("B")
        ("monthly") 100000
      = .error "Number of symbols must match number of weights")
    ∧ (backtest_portfolio id (fun _ => .ok ⟨[0], [1], [0]⟩) [("A")] [1] 0 40 ("B")
        ("monthly") 100000
      = .error "Insufficient data for backtesting") :=
  ⟨((c4_backtest_invalid_spec id).1 (fun _ => .ok ⟨[0], [1], [0]⟩)
      (fun _ => .ok ⟨[0], [1], [0]⟩) _ _ 0 40 _ _ 100000 (by decide)).1,
    (c4_backtest_invalid_spec id).2 (fun _ => .ok ⟨[0], [1], [0]⟩) _ _ 0 40 _ _ 100000
      [0] (by decide) (by norm_num) rfl (by decide)⟩

end Backtesting

namespace Optimization

/-- The data handed to the external SLSQP solver (`scipy.optimize.minimize`,
optimization.py lines 102-139): expected returns, covariance matrix, the
optional target-return constraint, the risk-free rate of the Sharpe objective
and the asset count (bounds and the equal-weight start are determined by it).
The solver itself is an abstract parameter: `none` models non-convergence. -/
structure SolverProblem where
  mu : List ℚ
  cov : List (List ℚ)
  targetReturn : Option ℚ
  riskFree : ℚ
  nAssets : ℕ
deriving DecidableEq

/-- The result dict of the optimizers (optimization.py lines 147-159). -/
structure OptResult where
  symbols : List String
  weights : List ℚ
  expected_return : ℚ
  expected_volatility : ℚ
  sharpe_ratio : ℚ
  optimization_type : String
  meta_risk_tolerance : String
  meta_target_return : Option ℚ
  meta_period : String
deriving DecidableEq

/-- Row length of the aligned price frame (`len(prices_df)`). -/
def rowLen (data : List (String × List ℚ)) : ℕ :=
  match data with
  | [] => 0
  | sp :: _ => sp.2.length

/-- `pd.DataFrame` accepts a dict of plain lists only when they all have the
same length (it raises `ValueError` otherwise). -/
def sameLengths (data : List (String × List ℚ)) : Bool :=
  data.all (fun sp => sp.2.length == rowLen data)

/-- `pct_change().dropna()`: simple returns from consecutive prices. -/
def pctChange (prices : List ℚ) : List ℚ :=
  List.zipWith (fun prev next => next / prev - 1) prices prices.tail

/-- `PortfolioOptimizer._prepare_data` (optimization.py lines 17-60): fetch
each symbol's prices (skipping failures), fall back to seeded mock data when
nothing was fetched, build the aligned frame (equal lengths required by
pandas; `dropna` is the identity in the exact-rational model, which has no
NaN), require at least 30 rows, and derive per-column simple returns.
`fetch` abstracts `data_service.get_historical_data` (`none` = raised), and
`mock` the seeded mock-price generation of lines 31-45. -/
def prepareData (fetch : String → String → Option (List ℚ)) (mock : String → List ℚ)
    (symbols : List String) (period : String) :
    Except String (List (String × List ℚ) × List (String × List ℚ)) :=
  let fetched := symbols.filterMap (fun s => (fetch s period).map (fun p => (s, p)))
  let pricesData := if fetched.isEmpty then symbols.map (fun s => (s, mock s)) else fetched
  if pricesData.isEmpty then .error "No valid price data found for any symbol"
  else if !sameLengths pricesData then .error "All arrays must be of the same length"
  else if rowLen pricesData < 30 then .error "Insufficient data for optimization"
  else .ok (pricesData, pricesData.map (fun sp => (sp.1, pctChange sp.2)))

/-- `_calculate_expected_returns` (optimization.py lines 62-64): per-column
mean daily return × 252. -/
def expectedReturns (returnsDf : List (String × List ℚ)) : List ℚ :=
  returnsDf.map (fun c => Analytics.mean c.2 * 252)

/-- Sample covariance of two aligned columns (pandas `cov`, ddof = 1). -/
def sampleCov (xs ys : List ℚ) : ℚ :=
  (List.zipWith (fun a b => (a - Analytics.mean xs) * (b - Analytics.mean ys)) xs ys).sum
    / ((xs.length : ℚ) - 1)

/-- `_calculate_covariance_matrix` (optimization.py lines 66-68): pandas
sample covariance × 252. -/
def covMatrix (returnsDf : List (String × List ℚ)) : List (List ℚ) :=
  returnsDf.map (fun ci => returnsDf.map (fun cj => sampleCov ci.2 cj.2 * 252))

/-- `np.dot` on vectors. -/
def dotList (xs ys : List ℚ) : ℚ := (List.zipWith (fun a b => a * b) xs ys).sum

/-- `np.dot(weights, np.dot(cov_matrix, weights))`. -/
def quadForm (w : List ℚ) (cov : List (List ℚ)) : ℚ :=
  dotList w (cov.map (fun row => dotList row w))

/-- `_portfolio_performance` (optimization.py lines 79-84): portfolio return,
volatility and Sharpe (0 when the volatility is not positive). -/
def portfolioPerformance (sqrtFn : ℚ → ℚ) (rf : ℚ) (w mu : List ℚ)
    (cov : List (List ℚ)) : ℚ × ℚ × ℚ :=
  let ret := dotList w mu
  let vol := sqrtFn (quadForm w cov)
  let sharpe := if 0 < vol then (ret - rf) / vol else 0
  (ret, vol, sharpe)

/-- `mean_variance_optimization` (optimization.py lines 86-159).  (The Python
truthiness nuance that a target return of exactly 0.0 behaves like `None` is
not modelled; no verified property passes a target return.) -/
def mean_variance_optimization (fetch : String → String → Option (List ℚ))
    (mock : String → List ℚ) (solver : SolverProblem → Option (List ℚ))
    (sqrtFn : ℚ → ℚ) (rf : ℚ) (symbols : List String) (riskTolerance : String)
    (targetReturn : Option ℚ) (period : String) : Except String OptResult :=
  match prepareData fetch mock symbols period with
  | .error e => .error e
  | .ok pr =>
    let mu := expectedReturns pr.2
    let cov := covMatrix pr.2
    match solver { mu := mu, cov := cov, targetReturn := targetReturn,
                   riskFree := rf, nAssets := symbols.length } with
    | none => .error "Optimization failed to converge"
    | some w =>
      let perf := portfolioPerformance sqrtFn rf w mu cov
      .ok { symbols := symbols, weights := w, expected_return := perf.1,
            expected_volatility := perf.2.1, sharpe_ratio := perf.2.2,
            optimization_type := "mean_variance",
            meta_risk_tolerance := riskTolerance,
            meta_target_return := targetReturn, meta_period := period }

/-- The market-cap fetch fallback of `black_litterman_optimization`
(optimization.py lines 293-302): per symbol, a raised fetch becomes a default
cap of 1.0, a truthy `market_cap` field is recorded, and a missing or zero
cap leaves the symbol out of the dict. -/
def fetchCaps (fetchCap : String → Except Unit (Option ℚ)) (symbols : List String) :
    List (String × ℚ) :=
  symbols.filterMap (fun s => match fetchCap s with
    | .error _ => some (s, 1)
    | .ok (some c) => if c ≠ 0 then some (s, c) else none
    | .ok none => none)

/-- The view-blending loop of `black_litterman_optimization` (optimization.py
lines 313-319): for each view on a requested symbol, blend the view into that
symbol's entry of `mu` at `symbols.index(symbol)` with the confidence as the
interpolation weight (0.5 when absent or when no confidences were supplied).
`mu.iloc[idx]` raises `IndexError` when the index reaches past the fetched
columns. -/
def applyViews (mu : List ℚ) (symbols : List String)
    (views viewConfidences : Option (List (String × ℚ))) :
    Except String (List ℚ) :=
  match views with
  | none => .ok mu
  | some vs =>
    if vs.isEmpty then .ok mu
    else vs.foldlM (fun m sv =>
      if sv.1 ∈ symbols then
        let idx := symbols.indexOf sv.1
        if h : idx < m.length then
          let conf := match viewConfidences with
            | some cs => if cs.isEmpty then (1:ℚ)/2 else (cs.lookup sv.1).getD (1/2)
            | none => (1:ℚ)/2
          .ok (m.set idx ((1 - conf) * m.get ⟨idx, h⟩ + conf * sv.2))
        else .error "single positional indexer is out-of-bounds"
      else .ok m) mu

/-- `black_litterman_optimization` (optimization.py lines 280-326): prepare
the data, obtain market caps (the supplied dict when truthy, else per-symbol
fetch), derive the market-cap-weighted prior — whose computation divides by
the cap total and raises `ZeroDivisionError` when that total is 0 —, blend
the supplied views into the expected returns, then *discard both* and
delegate to `mean_variance_optimization` on the same symbols, risk tolerance
and period. -/
def black_litterman_optimization (fetch : String → String → Option (List ℚ))
    (mock : String → List ℚ) (fetchCap : String → Except Unit (Option ℚ))
    (solver : SolverProblem → Option (List ℚ)) (sqrtFn : ℚ → ℚ) (rf : ℚ)
    (symbols : List String)
    (marketCaps views viewConfidences : Option (List (String × ℚ)))
    (riskTolerance period : String) : Except String OptResult :=
  match prepareData fetch mock symbols period with
  | .error e => .error e
  | .ok pr =>
    let caps : List (String × ℚ) := match marketCaps with
      | some m => if m.isEmpty then fetchCaps fetchCap symbols else m
      | none => fetchCaps fetchCap symbols
    let total : ℚ := (caps.map (fun c => c.2)).sum
    if total = 0 then .error "float division by zero"
    else
      let _priorWeights := symbols.map (fun s => ((caps.lookup s).getD 1) / total)
      let mu := expectedReturns pr.2
      let _cov := covMatrix pr.2
      match applyViews mu symbols views viewConfidences with
      | .error e => .error e
      | .ok _muAdjusted =>
        mean_variance_optimization fetch mock solver sqrtFn rf symbols riskTolerance
          none period

/-- C2, amended.  Whenever the Black-Litterman optimizer returns an
allocation, that allocation is exactly the mean-variance result on the same
symbols, risk tolerance and period: the market caps, views and confidences
never influence a successful output (the blended view-adjusted returns are
discarded).  They can only make the call fail before delegation — a zero
market-cap total raises a division error and an out-of-range view index an
index error. -/
theorem c2_black_litterman_delegates_spec (fetch : String → String → Option (List ℚ))
    (mock : String → List ℚ) (fetchCap : String → Except Unit (Option ℚ))
    (solver : SolverProblem → Option (List ℚ)) (sqrtFn : ℚ → ℚ) (rf : ℚ)
    (symbols : List String)
    (marketCaps views viewConfidences : Option (List (String × ℚ)))
    (riskTolerance period : String) (r : OptResult)
    (h : black_litterman_optimization fetch mock fetchCap solver sqrtFn rf symbols
      marketCaps views viewConfidences riskTolerance period = .ok r) :
    mean_variance_optimization fetch mock solver sqrtFn rf symbols riskTolerance
      none period = .ok r := by
  unfold black_litterman_optimization at h
  cases hp : prepareData fetch mock symbols period with
  | error e => rw [hp] at h; cases h
  | ok pr =>
    rw [hp] at h
    dsimp only at h
    split_ifs at h
    cases hv : applyViews (expectedReturns pr.2) symbols views viewConfidences with
    | error e => rw [hv] at h; cases h
    | ok muAdj => rw [hv] at h; exact h

/-- A concrete data source: every symbol resolves to 31 days of constant unit
prices. -/
def cFetch : String → String → Option (List ℚ) := fun _ _ => some (List.replicate 31 1)

/-- Mock generation is never reached for `cFetch`. -/
def cMock : String → List ℚ := fun _ => []

/-- A market-cap source whose `market_cap` field is always absent. -/
def cFetchCap : String → Except Unit (Option ℚ) := fun _ => .ok none

/-- A solver that always converges to the equal-weight vector. -/
def cSolver : SolverProblem → Option (List ℚ) := fun _ => some [1/2, 1/2]

/-- The mean-variance result on the constant-price data under `cSolver`. -/
def cRes : OptResult :=
  { symbols := [("A"), ("B")], weights := [1/2, 1/2],
    expected_return := 0, expected_volatility := 0, sharpe_ratio := 0,
    optimization_type := "mean_variance", meta_risk_tolerance := "moderate",
    meta_target_return := none, meta_period := "1y" }

theorem zipWith_replicate_pred (f : ℚ → ℚ → ℚ) (c : ℚ) :
    ∀ n, List.zipWith f (List.replicate (n+1) c) (List.replicate n c)
      = List.replicate n (f c c) := by
  intro n
  induction n with
  | zero => rfl
  | succ m ih =>
    show f c c :: List.zipWith f (List.replicate (m+1) c) (List.replicate m c)
      = f c c :: List.replicate m (f c c)
    rw [ih]

theorem zipWith_replicate_same (f : ℚ → ℚ → ℚ) (c d : ℚ) :
    ∀ n, List.zipWith f (List.replicate n c) (List.replicate n d)
      = List.replicate n (f c d) := by
  intro n
  induction n with
  | zero => rfl
  | succ m ih =>
    show f c d :: List.zipWith f (List.replicate m c) (List.replicate m d)
      = f c d :: List.replicate m (f c d)
    rw [ih]

theorem pctChange_replicate_one (n : ℕ) :
    pctChange (List.replicate (n+1) (1:ℚ)) = List.replicate n 0 := by
  unfold pctChange
  have ht : (List.replicate (n+1) (1:ℚ)).tail = List.replicate n 1 := by
    simp [List.replicate_succ]
  rw [ht, zipWith_replicate_pred]
  norm_num

theorem mean_replicate_zero (n : ℕ) : Analytics.mean (List.replicate n (0:ℚ)) = 0 := by
  simp [Analytics.mean]

theorem sampleCov_replicate_zero (n : ℕ) :
    sampleCov (List.replicate n (0:ℚ)) (List.replicate n 0) = 0 := by
  unfold sampleCov
  rw [mean_replicate_zero, zipWith_replicate_same]
  norm_num

theorem cPrep : prepareData cFetch cMock [("A"), ("B")] ("1y")
    = .ok ([(("A"), List.replicate 31 (1:ℚ)), (("B"), List.replicate 31 1)],
           [(("A"), List.replicate 30 (0:ℚ)), (("B"), List.replicate 30 0)]) := by
  have hfetched : [("A"), ("B")].filterMap
      (fun s => (cFetch s ("1y")).map (fun p => (s, p)))
      = [(("A"), List.replicate 31 (1:ℚ)), (("B"), List.replicate 31 1)] := rfl
  unfold prepareData
  rw [hfetched]
  norm_num [sameLengths, rowLen, pctChange_replicate_one, -List.reduceReplicate]

theorem cMV : mean_variance_optimization cFetch cMock cSolver id 0 [("A"), ("B")]
    ("moderate") none ("1y") = .ok cRes := by
  unfold mean_variance_optimization
  rw [cPrep]
  have hmu : expectedReturns
      [(("A"), List.replicate 30 (0:ℚ)), (("B"), List.replicate 30 0)] = [0, 0] := by
    simp [expectedReturns, mean_replicate_zero, -List.reduceReplicate]
  have hcov : covMatrix
      [(("A"), List.replicate 30 (0:ℚ)), (("B"), List.replicate 30 0)]
      = [[0, 0], [0, 0]] := by
    simp [covMatrix, sampleCov_replicate_zero, -List.reduceReplicate]
  dsimp only [cSolver]
  rw [hmu, hcov]
  norm_num [portfolioPerformance, dotList, quadForm, cRes]

/-- C2, counterexample.  With supplied market capitalizations that sum to 0,
the Black-Litterman prior computation divides by zero and the call fails,
while the plain mean-variance optimization on the same symbols, risk
tolerance and period succeeds — the outputs differ, so Black-Litterman is not
unconditionally equivalent to mean-variance for every supplied market-cap
map. -/
theorem c2_counterexample :
    black_litterman_optimization cFetch cMock cFetchCap cSolver id 0 [("A"), ("B")]
        (some [(("A"), 0), (("B"), 0)]) none none ("moderate") ("1y")
      = .error "float division by zero"
    ∧ mean_variance_optimization cFetch cMock cSolver id 0 [("A"), ("B")]
        ("moderate") none ("1y") = .ok cRes
    ∧ (Except.error "float division by zero" : Except String OptResult) ≠ .ok cRes := by
  refine ⟨?_, cMV, by simp⟩
  unfold black_litterman_optimization
  rw [cPrep]
  norm_num

theorem c2_black_litterman_delegates_spec_witness :
    mean_variance_optimization cFetch cMock cSolver id 0 [("A"), ("B")]
      ("moderate") none ("1y") = .ok cRes :=
  c2_black_litterman_delegates_spec cFetch cMock cFetchCap cSolver id 0 [("A"), ("B")]
    (some [(("A"), 1), (("B"), 1)]) none none ("moderate") ("1y") cRes (by
      unfold black_litterman_optimization
      rw [cPrep]
      norm_num [applyViews, cMV])

end Optimization
